import Mathlib

/-!
Shallow embedding of `src/core/models/img2bev/transformer_utils/encoder.py`
(classes `VoxFormerEncoder`, `VoxFormerEncoder_DFA3D`, `VoxFormerLayer`).

Tensors are modelled per point: a batched tensor operation that applies the
same arithmetic to every (batch, camera, level, query) slot is embedded as a
function on a single slot, and the surrounding structure (lists of cameras,
levels, queries) is rebuilt where a claim needs it.  Floating point values
are idealised as rationals.  `torch.inverse` on an invertible matrix is the
classical adjugate-over-determinant inverse, written out explicitly so that
everything is computable.
-/

namespace CGFormer

/-- Epsilon used throughout `point_sampling` (`eps = 1e-5` in the source). -/
def eps : ℚ := 1 / 100000

/-- A 2-vector of rationals (one (x, y) pixel slot). -/
structure Vec2 where
  x : ℚ
  y : ℚ
deriving DecidableEq, Repr

/-- A 3-vector of rationals (one (x, y, z) point slot). -/
structure Vec3 where
  x : ℚ
  y : ℚ
  z : ℚ
deriving DecidableEq, Repr

/-- A 4-vector of rationals (one homogeneous point slot). -/
structure Vec4 where
  x : ℚ
  y : ℚ
  z : ℚ
  w : ℚ
deriving DecidableEq, Repr

/-- A 2×2 matrix, row major: entry `aij` is row i, column j. -/
structure Mat2 where
  a00 : ℚ
  a01 : ℚ
  a10 : ℚ
  a11 : ℚ
deriving DecidableEq, Repr

/-- A 3×3 matrix, row major. -/
structure Mat3 where
  a00 : ℚ
  a01 : ℚ
  a02 : ℚ
  a10 : ℚ
  a11 : ℚ
  a12 : ℚ
  a20 : ℚ
  a21 : ℚ
  a22 : ℚ
deriving DecidableEq, Repr

/-- A 4×4 matrix, row major. -/
structure Mat4 where
  a00 : ℚ
  a01 : ℚ
  a02 : ℚ
  a03 : ℚ
  a10 : ℚ
  a11 : ℚ
  a12 : ℚ
  a13 : ℚ
  a20 : ℚ
  a21 : ℚ
  a22 : ℚ
  a23 : ℚ
  a30 : ℚ
  a31 : ℚ
  a32 : ℚ
  a33 : ℚ
deriving DecidableEq, Repr

/-- Matrix–vector product for 2×2 (used for `post_rots[:, :, :2, :2] @ ...`). -/
def Mat2.app (m : Mat2) (v : Vec2) : Vec2 :=
  ⟨m.a00 * v.x + m.a01 * v.y, m.a10 * v.x + m.a11 * v.y⟩

/-- Matrix–vector product for 3×3. -/
def Mat3.app (m : Mat3) (v : Vec3) : Vec3 :=
  ⟨m.a00 * v.x + m.a01 * v.y + m.a02 * v.z,
   m.a10 * v.x + m.a11 * v.y + m.a12 * v.z,
   m.a20 * v.x + m.a21 * v.y + m.a22 * v.z⟩

/-- Matrix–vector product for 4×4. -/
def Mat4.app (m : Mat4) (v : Vec4) : Vec4 :=
  ⟨m.a00 * v.x + m.a01 * v.y + m.a02 * v.z + m.a03 * v.w,
   m.a10 * v.x + m.a11 * v.y + m.a12 * v.z + m.a13 * v.w,
   m.a20 * v.x + m.a21 * v.y + m.a22 * v.z + m.a23 * v.w,
   m.a30 * v.x + m.a31 * v.y + m.a32 * v.z + m.a33 * v.w⟩

/-- Determinant of a 3×3 matrix given by its nine entries (row major). -/
def det3x3 (b00 b01 b02 b10 b11 b12 b20 b21 b22 : ℚ) : ℚ :=
  b00 * (b11 * b22 - b12 * b21)
    - b01 * (b10 * b22 - b12 * b20)
    + b02 * (b10 * b21 - b11 * b20)

/-- Determinant of a `Mat3`. -/
def Mat3.det (m : Mat3) : ℚ :=
  det3x3 m.a00 m.a01 m.a02 m.a10 m.a11 m.a12 m.a20 m.a21 m.a22

/-- Inverse of a 3×3 matrix (adjugate over determinant), the value
`torch.inverse` returns on an invertible input. -/
def Mat3.inv (m : Mat3) : Mat3 :=
  let d := m.det
  ⟨(m.a11 * m.a22 - m.a12 * m.a21) / d,
   -(m.a01 * m.a22 - m.a02 * m.a21) / d,
   (m.a01 * m.a12 - m.a02 * m.a11) / d,
   -(m.a10 * m.a22 - m.a12 * m.a20) / d,
   (m.a00 * m.a22 - m.a02 * m.a20) / d,
   -(m.a00 * m.a12 - m.a02 * m.a10) / d,
   (m.a10 * m.a21 - m.a11 * m.a20) / d,
   -(m.a00 * m.a21 - m.a01 * m.a20) / d,
   (m.a00 * m.a11 - m.a01 * m.a10) / d⟩

/-- Determinant of a `Mat4` by cofactor expansion along the first row. -/
def Mat4.det (m : Mat4) : ℚ :=
  m.a00 * det3x3 m.a11 m.a12 m.a13 m.a21 m.a22 m.a23 m.a31 m.a32 m.a33
    - m.a01 * det3x3 m.a10 m.a12 m.a13 m.a20 m.a22 m.a23 m.a30 m.a32 m.a33
    + m.a02 * det3x3 m.a10 m.a11 m.a13 m.a20 m.a21 m.a23 m.a30 m.a31 m.a33
    - m.a03 * det3x3 m.a10 m.a11 m.a12 m.a20 m.a21 m.a22 m.a30 m.a31 m.a32

/-- Inverse of a 4×4 matrix: entry (i, j) is `(-1)^(i+j)` times the minor
determinant obtained by deleting row j and column i, over the determinant
(adjugate transpose) — the value `torch.inverse` returns on an invertible
input. -/
def Mat4.inv (m : Mat4) : Mat4 :=
  let d := m.det
  ⟨det3x3 m.a11 m.a12 m.a13 m.a21 m.a22 m.a23 m.a31 m.a32 m.a33 / d,
   -det3x3 m.a01 m.a02 m.a03 m.a21 m.a22 m.a23 m.a31 m.a32 m.a33 / d,
   det3x3 m.a01 m.a02 m.a03 m.a11 m.a12 m.a13 m.a31 m.a32 m.a33 / d,
   -det3x3 m.a01 m.a02 m.a03 m.a11 m.a12 m.a13 m.a21 m.a22 m.a23 / d,
   -det3x3 m.a10 m.a12 m.a13 m.a20 m.a22 m.a23 m.a30 m.a32 m.a33 / d,
   det3x3 m.a00 m.a02 m.a03 m.a20 m.a22 m.a23 m.a30 m.a32 m.a33 / d,
   -det3x3 m.a00 m.a02 m.a03 m.a10 m.a12 m.a13 m.a30 m.a32 m.a33 / d,
   det3x3 m.a00 m.a02 m.a03 m.a10 m.a12 m.a13 m.a20 m.a22 m.a23 / d,
   det3x3 m.a10 m.a11 m.a13 m.a20 m.a21 m.a23 m.a30 m.a31 m.a33 / d,
   -det3x3 m.a00 m.a01 m.a03 m.a20 m.a21 m.a23 m.a30 m.a31 m.a33 / d,
   det3x3 m.a00 m.a01 m.a03 m.a10 m.a11 m.a13 m.a30 m.a31 m.a33 / d,
   -det3x3 m.a00 m.a01 m.a03 m.a10 m.a11 m.a13 m.a20 m.a21 m.a23 / d,
   -det3x3 m.a10 m.a11 m.a12 m.a20 m.a21 m.a22 m.a30 m.a31 m.a32 / d,
   det3x3 m.a00 m.a01 m.a02 m.a20 m.a21 m.a22 m.a30 m.a31 m.a32 / d,
   -det3x3 m.a00 m.a01 m.a02 m.a10 m.a11 m.a12 m.a30 m.a31 m.a32 / d,
   det3x3 m.a00 m.a01 m.a02 m.a10 m.a11 m.a12 m.a20 m.a21 m.a22 / d⟩

/-- The `bda` and `intrins` camera parameters are either 3×3 or 4×4 tensors;
the source branches on `.shape[-1] == 4` / `.shape[3] == 4`. -/
inductive SquareMat where
  | m3 (m : Mat3)
  | m4 (m : Mat4)
deriving DecidableEq, Repr

/-- One camera's slice of the `cam_params` tuple
`(rots, trans, intrins, post_rots, post_trans, bda)`.  `bda` is batch-level
in the source but enters the per-point arithmetic the same way. -/
structure CamParams where
  rots : Mat3
  trans : Vec3
  intrins : SquareMat
  post_rots : Mat3
  post_trans : Vec3
  bda : SquareMat
deriving DecidableEq, Repr

/-- The six scalars `pc_range[0..5]` = (xmin, ymin, zmin, xmax, ymax, zmax). -/
structure PcRange where
  x0 : ℚ
  y0 : ℚ
  z0 : ℚ
  x1 : ℚ
  y1 : ℚ
  z1 : ℚ
deriving DecidableEq, Repr

/-- Lines 112–117 (and identically 275–280): rescale a normalized reference
point into metric coordinates inside `pc_range`.  In the source these are
in-place writes into the `reference_points` argument, so this is also the
value the caller's buffer holds after `point_sampling` returns. -/
def worldPoint (pc : PcRange) (p : Vec3) : Vec3 :=
  ⟨p.x * (pc.x1 - pc.x0) + pc.x0,
   p.y * (pc.y1 - pc.y0) + pc.y0,
   p.z * (pc.z1 - pc.z0) + pc.z0⟩

/-- Lines 127–143 (identically 290–306): undo the batch augmentation `bda`,
subtract the camera translation, rotate into the camera frame with
`rots⁻¹`, and apply the intrinsics.  Returns the first three channels of
`reference_points_cam` (channel 3, present only when `intrins` is 4×4, is
never read afterwards): `(u·d, v·d, d)` pre perspective divide. -/
def camPoint (cp : CamParams) (w : Vec3) : Vec3 :=
  let p₀ : Vec3 :=
    match cp.bda with
    | .m3 m => m.inv.app w
    | .m4 m =>
      let q := m.inv.app ⟨w.x, w.y, w.z, 1⟩
      ⟨q.x, q.y, q.z⟩
  let p₁ : Vec3 := ⟨p₀.x - cp.trans.x, p₀.y - cp.trans.y, p₀.z - cp.trans.z⟩
  let p₂ : Vec3 := cp.rots.inv.app p₁
  match cp.intrins with
  | .m3 k => k.app p₂
  | .m4 k =>
    let q := k.app ⟨p₂.x, p₂.y, p₂.z, 1⟩
    ⟨q.x, q.y, q.z⟩

/-- The divisor of the perspective divide, `torch.maximum(points_d, eps)`
(lines 146–148 / 309–311). -/
def perspDivisor (d : ℚ) : ℚ := max d eps

/-- The top-left 2×2 block `post_rots[:, :, :2, :2]` (line 150 / 313). -/
def postRot2 (m : Mat3) : Mat2 := ⟨m.a00, m.a01, m.a10, m.a11⟩

/-- Lines 145–155 (identically 308–318): perspective divide by
`max(d, eps)`, image-space augmentation by the 2×2 block of `post_rots`
plus `post_trans`, then normalization by the image size
`(ogfW, ogfH) = final_dim` reversed.  `fd = (ogfH, ogfW)`. -/
def pixelFromCam (fd : ℚ × ℚ) (cp : CamParams) (c : Vec3) : Vec2 :=
  let dv := perspDivisor c.z
  let u := c.x / dv
  let v := c.y / dv
  let r := (postRot2 cp.post_rots).app ⟨u, v⟩
  let u₁ := r.x + cp.post_trans.x
  let v₁ := r.y + cp.post_trans.y
  ⟨u₁ / fd.2, v₁ / fd.1⟩

/-- Lines 156–162 (identically 322–328): the visibility mask of one slot,
from the depth gate value and the two normalized pixel coordinates. -/
def volumeMask (d xn yn : ℚ) : Bool :=
  decide (d > eps) && decide (xn > eps) && decide (xn < 1 - eps)
    && decide (yn > eps) && decide (yn < 1 - eps)

/-- Result of `VoxFormerEncoder.point_sampling` for one slot: the projected
pixel coordinates, the mask bit, and the value left in the caller's
`reference_points` buffer by the in-place writes of lines 112–117. -/
structure SampleA where
  xy : Vec2
  mask : Bool
  bufferAfter : Vec3
deriving DecidableEq, Repr

/-- `VoxFormerEncoder.point_sampling` (lines 104–166) on one slot.  The
`force_fp32` decorator is a no-op because `fp16_enabled` is `False`, so the
function receives and mutates the caller's tensor itself.  In this variant
the perspective divide (line 146) rebinds `reference_points_cam` to a fresh
2-channel tensor, so `points_d` keeps the raw camera depth and the mask's
depth gate tests the raw depth. -/
def pointSamplingA (fd : ℚ × ℚ) (pc : PcRange) (cp : CamParams) (p : Vec3) :
    SampleA :=
  let w := worldPoint pc p
  let c := camPoint cp w
  let uv := pixelFromCam fd cp c
  { xy := uv, mask := volumeMask c.z uv.x uv.y, bufferAfter := w }

/-- Line 319: depth normalized by the configured bounds
`(d - d_bound[0]) / (d_bound[1] - d_bound[0])`; `db = (dNear, dFar)`. -/
def dNorm (db : ℚ × ℚ) (d : ℚ) : ℚ := (d - db.1) / (db.2 - db.1)

/-- Result of `VoxFormerEncoder_DFA3D.point_sampling` for one slot. -/
structure SampleB where
  xyz : Vec3
  mask : Bool
  bufferAfter : Vec3
deriving DecidableEq, Repr

/-- `VoxFormerEncoder_DFA3D.point_sampling` (lines 267–332) on one slot.
Lines 267–318 repeat variant A, but all writes into `reference_points_cam`
are in place, and `points_d` (line 308) is a view of its depth channel.
Line 319 overwrites that channel with the normalized depth, so when line
322 builds the mask, the depth gate reads the NORMALIZED depth, not the raw
camera depth as in variant A. -/
def pointSamplingB (fd : ℚ × ℚ) (pc : PcRange) (cp : CamParams)
    (db : ℚ × ℚ) (p : Vec3) : SampleB :=
  let w := worldPoint pc p
  let c := camPoint cp w
  let uv := pixelFromCam fd cp c
  let dn := dNorm db c.z
  { xyz := ⟨uv.x, uv.y, dn⟩, mask := volumeMask dn uv.x uv.y, bufferAfter := w }

/-- `torch.linspace(a, b, steps)`: `steps` evenly spaced values from `a` to
`b` inclusive; a single-element tensor `[a]` when `steps = 1`, empty when
`steps = 0`. -/
def linspace (a b : ℚ) (steps : Nat) : List ℚ :=
  if steps = 1 then [a]
  else (List.range steps).map fun i : ℕ =>
    a + (b - a) * (i : ℚ) / ((steps : ℚ) - 1)

/-- Lines 76–86, the `dim == '3d'` branch of `get_reference_points` for one
batch item: `zs = linspace(0.5, Z-0.5, num_points_in_pillar) / Z` expanded
over the grid, `xs = linspace(0.5, W-0.5, W) / W`,
`ys = linspace(0.5, H-0.5, H) / H`; after the stack/permute/flatten the
layout is `[level][row*W + col]` with components `(x, y, z)`. -/
def getReferencePoints3d (H W Z n : Nat) : List (List Vec3) :=
  (linspace (1/2) ((Z : ℚ) - 1/2) n).map fun zRaw =>
    (linspace (1/2) ((H : ℚ) - 1/2) H).flatMap fun yRaw =>
      (linspace (1/2) ((W : ℚ) - 1/2) W).map fun xRaw =>
        (⟨xRaw / W, yRaw / H, zRaw / Z⟩ : Vec3)

/-- Lines 89–100, the `dim == '2d'` branch for one batch item: an `ij`
meshgrid of `linspace(0.5, H-0.5, H)` by `linspace(0.5, W-0.5, W)`,
flattened row major and stacked as `(x, y)`, each normalized by `W`
resp. `H`. -/
def getReferencePoints2d (H W : Nat) : List Vec2 :=
  (linspace (1/2) ((H : ℚ) - 1/2) H).flatMap fun yRaw =>
    (linspace (1/2) ((W : ℚ) - 1/2) W).map fun xRaw =>
      (⟨xRaw / W, yRaw / H⟩ : Vec2)

/-- The two shapes `get_reference_points` can return, with the leading
batch axis made explicit (`ref_3d[None].repeat(bs, 1, 1, 1)` resp.
`ref_2d.repeat(bs, 1, 1)`). -/
inductive RefPoints where
  | ref3d (pts : List (List (List Vec3)))
  | ref2d (pts : List (List Vec2))
deriving DecidableEq, Repr

/-- `VoxFormerEncoder.get_reference_points` (lines 61–100): an
`if dim == '3d' / elif dim == '2d'` chain with no `else`, so any other
`dim` falls through and Python returns `None`. -/
def get_reference_points (H W Z n : Nat) (dim : String) (bs : Nat) :
    Option RefPoints :=
  if dim = "3d" then
    some (.ref3d (List.replicate bs (getReferencePoints3d H W Z n)))
  else if dim = "2d" then
    some (.ref2d (List.replicate bs (getReferencePoints2d H W)))
  else
    none

/-! ## The encoder forward pass

The attention layers are external modules; each is modelled as an opaque
function from the bundle of arguments `VoxFormerEncoder.forward` passes it
(line 225–240) to an updated query.  The batch axis is dropped; the
`hybird_ref_2d` stacking of `ref_2d` with itself along the doubled batch
axis is kept as an explicit two-element list. -/

/-- Configuration of a `VoxFormerEncoder` instance. -/
structure EncoderCfg where
  returnIntermediate : Bool
  pcRange : PcRange
  finalDim : ℚ × ℚ
deriving Repr

/-- The per-layer argument bundle of lines 225–240.  `refPointsCam` and
`bevMask` are indexed `[camera][level][query]` (the source permutes these
axes to `[camera, batch, query, level]`; the permutation only reshuffles
indices and no claim depends on it). -/
structure LayerInput (Q : Type) where
  query : Q
  ref2d : List (List Vec2)
  ref3d : List (List Vec3)
  bevH : Nat
  bevW : Nat
  refPointsCam : List (List (List Vec2))
  bevMask : List (List (List Bool))
  prevBev : Q

/-- The argument bundle the first layer receives: `ref_2d` is generated on
the hard-coded 512×512 grid (lines 207–208) and duplicated into
`hybird_ref_2d` (lines 212–213); `point_sampling` both produces the
projected points and mask and overwrites the `ref_3d` buffer in place with
the `pc_range`-rescaled coordinates, and it is that rescaled buffer that
line 232 passes on. -/
def encBaseInput (cfg : EncoderCfg) (cams : List CamParams) (bevQuery : Q)
    (bevH bevW : Nat) (ref3dIn : List (List Vec3)) (prevBev : Q) :
    LayerInput Q :=
  let ref2d := getReferencePoints2d 512 512
  { query := bevQuery
    ref2d := [ref2d, ref2d]
    ref3d := ref3dIn.map fun lvl => lvl.map (worldPoint cfg.pcRange)
    bevH := bevH
    bevW := bevW
    refPointsCam := cams.map fun cp =>
      ref3dIn.map fun lvl => lvl.map fun p =>
        (pointSamplingA cfg.finalDim cfg.pcRange cp p).xy
    bevMask := cams.map fun cp =>
      ref3dIn.map fun lvl => lvl.map fun p =>
        (pointSamplingA cfg.finalDim cfg.pcRange cp p).mask
    prevBev := prevBev }

/-- Between two layer calls only the running query changes; every other
field of the bundle is passed unchanged (lines 225–242). -/
def stepInput (inp : LayerInput Q) (q : Q) : LayerInput Q :=
  { inp with query := q }

/-- The sequence of layer outputs of the loop in lines 224–244: each layer
is applied to the bundle with the running query, and its output becomes the
next query. -/
def runLayers : List (LayerInput Q → Q) → LayerInput Q → List Q
  | [], _ => []
  | l :: ls, inp =>
    let out := l inp
    out :: runLayers ls (stepInput inp out)

/-- The running query after a list of layers has been applied. -/
def queryAfter : List (LayerInput Q → Q) → LayerInput Q → Q
  | [], inp => inp.query
  | l :: ls, inp => queryAfter ls (stepInput inp (l inp))

/-- Return shape of `VoxFormerEncoder.forward`: the bare final output, or
the `torch.stack` of the collected intermediates. -/
inductive EncOut (Q : Type) where
  | single (q : Q)
  | stack (qs : List Q)

/-- `VoxFormerEncoder.forward` (lines 168–249): generate `ref_2d` on the
fixed 512×512 grid, run `point_sampling`, fold the layers over the running
query, and return either the stacked intermediates or the last output. -/
def encForward (cfg : EncoderCfg) (layers : List (LayerInput Q → Q))
    (cams : List CamParams) (bevQuery : Q) (bevH bevW : Nat)
    (ref3dIn : List (List Vec3)) (prevBev : Q) : EncOut Q :=
  let base := encBaseInput cfg cams bevQuery bevH bevW ref3dIn prevBev
  let outs := runLayers layers base
  if cfg.returnIntermediate then .stack outs
  else .single (outs.getLastD bevQuery)

/-! ## The `VoxFormerLayer` forward pass

The attention, norm and ffn sub-modules are external; each indexed family is
modelled as a function from the running index to an opaque module function.
(The base class constructs exactly as many modules as the operation order
references, so indexing is always in range.) -/

/-- The `attn_masks` argument of `VoxFormerLayer.forward`: absent, a single
shared tensor, or a list with one optional mask per attention. -/
inductive AttnMasksArg (M : Type) where
  | absent
  | single (m : M)
  | list (ms : List (Option M))

/-- Outcome of the `attn_masks` normalization in lines 434–446: either the
per-slot list together with whether the duplication warning fired, or the
`assert` failure for a list of the wrong length. -/
inductive MasksResult (M : Type) where
  | ok (ms : List (Option M)) (warned : Bool)
  | assertError

/-- Lines 434–446: `None` becomes one `None` per attention slot; a single
tensor is deep-copied into every slot with a warning; a list must already
have length `num_attn` or the `assert` fires. -/
def normalizeAttnMasks (numAttn : Nat) : AttnMasksArg M → MasksResult M
  | .absent => .ok (List.replicate numAttn none) false
  | .single m => .ok (List.replicate numAttn (some m)) true
  | .list ms => if ms.length = numAttn then .ok ms false else .assertError

/-- The sub-modules and configuration a `VoxFormerLayer` closes over.
`attention i` takes the query, key, value, the optional pre-norm identity,
and the mask of slot `i`; `ffn i` takes the query and the optional pre-norm
identity. -/
structure LayerCtx (Q M : Type) where
  attention : Nat → Q → Q → Q → Option Q → Option M → Q
  norm : Nat → Q → Q
  ffn : Nat → Q → Option Q → Q
  preNorm : Bool

/-- The mutable locals of the loop in lines 430–498: the running query, the
`identity` anchor, and the three sub-module indices. -/
structure LayerState (Q : Type) where
  query : Q
  identity : Q
  attnIndex : Nat
  normIndex : Nat
  ffnIndex : Nat
deriving Repr

/-- One iteration of the `for layer in self.operation_order` loop (lines
448–496): an `if/elif` chain over the four recognized tags with no `else`,
so any other tag changes nothing.  `self_attn` attends with `prev_bev` as
key and value; `cross_attn` with the camera features `key`/`value`; both
bump `attn_index` and move `identity` to the new query. -/
def layerStep (ctx : LayerCtx Q M) (key value prevBev : Q)
    (masks : Nat → Option M) (s : LayerState Q) (tag : String) :
    LayerState Q :=
  if tag = "self_attn" then
    let q := ctx.attention s.attnIndex s.query prevBev prevBev
      (if ctx.preNorm then some s.identity else none) (masks s.attnIndex)
    { s with query := q, identity := q, attnIndex := s.attnIndex + 1 }
  else if tag = "norm" then
    { s with query := ctx.norm s.normIndex s.query,
             normIndex := s.normIndex + 1 }
  else if tag = "cross_attn" then
    let q := ctx.attention s.attnIndex s.query key value
      (if ctx.preNorm then some s.identity else none) (masks s.attnIndex)
    { s with query := q, identity := q, attnIndex := s.attnIndex + 1 }
  else if tag = "ffn" then
    { s with query := ctx.ffn s.ffnIndex s.query
               (if ctx.preNorm then some s.identity else none),
             ffnIndex := s.ffnIndex + 1 }
  else
    s

/-- The loop of lines 448–496 folded over the whole operation order,
starting from `identity = query` and all indices 0, returning the final
query (line 498). -/
def layerForward (ctx : LayerCtx Q M) (key value prevBev : Q)
    (masks : Nat → Option M) (operationOrder : List String) (query : Q) : Q :=
  (operationOrder.foldl (layerStep ctx key value prevBev masks)
    ⟨query, query, 0, 0, 0⟩).query

/-- `VoxFormerLayer.forward` (lines 379–498) with the `attn_masks`
normalization made explicit: `none` models the `assert` failure; otherwise
the result carries whether the duplication warning fired and the final
query. -/
def layerForwardTop (ctx : LayerCtx Q M) (numAttn : Nat)
    (arg : AttnMasksArg M) (key value prevBev : Q)
    (operationOrder : List String) (query : Q) : Option (Bool × Q) :=
  match normalizeAttnMasks numAttn arg with
  | .assertError => none
  | .ok ms warned =>
    some (warned,
      layerForward ctx key value prevBev (fun i => ms.getD i none)
        operationOrder query)

/-- The four operation tags lines 450–496 recognize. -/
def recognizedTags : List String := ["self_attn", "norm", "cross_attn", "ffn"]

/-! ## Shared helper facts and concrete instances -/

/-- The 3×3 identity matrix. -/
def id3 : Mat3 := ⟨1, 0, 0, 0, 1, 0, 0, 0, 1⟩

/-- A camera with identity rotations and intrinsics and zero translations:
under it the camera frame coincides with the (bda-undone) world frame. -/
def idCam : CamParams :=
  { rots := id3, trans := ⟨0, 0, 0⟩, intrins := .m3 id3,
    post_rots := id3, post_trans := ⟨0, 0, 0⟩, bda := .m3 id3 }

/-- The unit point-cloud range [0,1]³ (rescaling is the identity). -/
def unitRange : PcRange := ⟨0, 0, 0, 1, 1, 1⟩

/-- A symmetric point-cloud range [-1,1]³ (rescaling moves every interior
point). -/
def symRange : PcRange := ⟨-1, -1, -1, 1, 1, 1⟩

/-- The default `d_bound = [2.0, 58.0, 0.5]` of `VoxFormerEncoder_DFA3D`
as the `(dNear, dFar)` pair. -/
def dbStd : ℚ × ℚ := (2, 58)

lemma eps_pos : 0 < eps := by norm_num [eps]

/-- Characterization of the visibility mask as a conjunction of strict
bounds. -/
lemma volumeMask_eq_true (d xn yn : ℚ) :
    volumeMask d xn yn = true ↔
      (eps < d ∧ eps < xn ∧ xn < 1 - eps ∧ eps < yn ∧ yn < 1 - eps) := by
  simp [volumeMask, and_assoc]

/-! ## Claim C1 -/

/-- C1: for every slot, the visibility mask produced by
`VoxFormerEncoder.point_sampling` is true iff the camera-space depth
exceeds ε and both normalized pixel coordinates lie strictly between ε and
1−ε; in particular it is false whenever the depth is ≤ ε, and false
whenever a normalized pixel coordinate is exactly 0, exactly 1, or outside
[0,1]. -/
theorem c1_visibility_mask (fd : ℚ × ℚ) (pc : PcRange) (cp : CamParams)
    (p : Vec3) :
    ((pointSamplingA fd pc cp p).mask = true ↔
      (eps < (camPoint cp (worldPoint pc p)).z ∧
       eps < (pointSamplingA fd pc cp p).xy.x ∧
       (pointSamplingA fd pc cp p).xy.x < 1 - eps ∧
       eps < (pointSamplingA fd pc cp p).xy.y ∧
       (pointSamplingA fd pc cp p).xy.y < 1 - eps)) ∧
    ((camPoint cp (worldPoint pc p)).z ≤ eps →
      (pointSamplingA fd pc cp p).mask = false) ∧
    ((pointSamplingA fd pc cp p).xy.x ≤ 0 ∨ 1 ≤ (pointSamplingA fd pc cp p).xy.x ∨
     (pointSamplingA fd pc cp p).xy.y ≤ 0 ∨ 1 ≤ (pointSamplingA fd pc cp p).xy.y →
      (pointSamplingA fd pc cp p).mask = false) := by
  have hiff := volumeMask_eq_true (camPoint cp (worldPoint pc p)).z
    (pointSamplingA fd pc cp p).xy.x (pointSamplingA fd pc cp p).xy.y
  have hmask : (pointSamplingA fd pc cp p).mask =
      volumeMask (camPoint cp (worldPoint pc p)).z
        (pointSamplingA fd pc cp p).xy.x (pointSamplingA fd pc cp p).xy.y := rfl
  have heps : (0 : ℚ) < eps := eps_pos
  have heps1 : eps < 1 - eps := by norm_num [eps]
  constructor
  · rw [hmask]; exact hiff
  constructor
  · intro hd
    rw [hmask]
    rcases Bool.eq_false_or_eq_true (volumeMask (camPoint cp (worldPoint pc p)).z
      (pointSamplingA fd pc cp p).xy.x (pointSamplingA fd pc cp p).xy.y) with h | h
    · exact absurd (hiff.mp h).1 (not_lt.mpr hd)
    · exact h
  · intro hxy
    rw [hmask]
    rcases Bool.eq_false_or_eq_true (volumeMask (camPoint cp (worldPoint pc p)).z
      (pointSamplingA fd pc cp p).xy.x (pointSamplingA fd pc cp p).xy.y) with h | h
    · exfalso
      obtain ⟨_, hx1, hx2, hy1, hy2⟩ := hiff.mp h
      have h1e : (1 : ℚ) - eps ≤ 1 := by norm_num [eps]
      rcases hxy with hx | hx | hy | hy
      · exact absurd hx1 (not_lt.mpr (hx.trans heps.le))
      · exact absurd hx2 (not_lt.mpr (h1e.trans hx))
      · exact absurd hy1 (not_lt.mpr (hy.trans heps.le))
      · exact absurd hy2 (not_lt.mpr (h1e.trans hy))
    · exact h

/-- Witness for C1 at a concrete degenerate-depth input: the depth gate is
violated and the mask is false. -/
theorem c1_visibility_mask_witness :
    (camPoint idCam (worldPoint unitRange ⟨1/2, 1/2, 0⟩)).z ≤ eps ∧
    (pointSamplingA (1, 1) unitRange idCam ⟨1/2, 1/2, 0⟩).mask = false := by
  have hd : (camPoint idCam (worldPoint unitRange ⟨1/2, 1/2, 0⟩)).z ≤ eps := by
    norm_num [camPoint, idCam, id3, Mat3.inv, Mat3.det, det3x3, Mat3.app,
      worldPoint, unitRange, eps]
  exact ⟨hd, (c1_visibility_mask (1, 1) unitRange idCam ⟨1/2, 1/2, 0⟩).2.1 hd⟩

/-- A mask whose depth gate value is ≤ ε is false. -/
lemma volumeMask_false_of_depth_le (d x y : ℚ) (h : d ≤ eps) :
    volumeMask d x y = false := by
  have hd : decide (d > eps) = false := decide_eq_false (not_lt.mpr h)
  simp [volumeMask, hd]

/-! ## Claim C2 -/

/-- C2 counterexample: on identical inputs (identity camera, unit
`pc_range`, default `d_bound = (2, 58)`, point with camera depth 1 and
pixel (1/2, 1/2)), `VoxFormerEncoder.point_sampling` reports the point
visible but `VoxFormerEncoder_DFA3D.point_sampling` reports it invisible:
the DFA3D mask's depth gate reads the normalized depth `(1-2)/56 < ε`
because `points_d` aliases the in-place-normalized depth channel. -/
theorem c2_masks_differ :
    (pointSamplingA (1, 1) unitRange idCam ⟨1/2, 1/2, 1⟩).mask = true ∧
    (pointSamplingB (1, 1) unitRange idCam dbStd ⟨1/2, 1/2, 1⟩).mask = false := by
  constructor <;>
    norm_num [pointSamplingA, pointSamplingB, pixelFromCam, perspDivisor,
      postRot2, volumeMask, camPoint, worldPoint, dNorm, Mat3.inv, Mat3.det,
      det3x3, Mat3.app, Mat2.app, idCam, id3, unitRange, dbStd, eps, max_def]

/-- C2 amended: on identical inputs the two projector variants agree on
both pixel-coordinate channels, and the DFA3D variant adds a third channel
holding the depth normalized via `(d - dNear) / (dFar - dNear)`; its
visibility mask, however, applies the depth gate to the NORMALIZED depth
instead of the raw camera depth, so the two masks coincide exactly when
the two depth gates agree. -/
theorem c2_variants_agree (fd : ℚ × ℚ) (pc : PcRange) (cp : CamParams)
    (db : ℚ × ℚ) (p : Vec3) :
    (pointSamplingB fd pc cp db p).xyz.x = (pointSamplingA fd pc cp p).xy.x ∧
    (pointSamplingB fd pc cp db p).xyz.y = (pointSamplingA fd pc cp p).xy.y ∧
    (pointSamplingB fd pc cp db p).xyz.z =
      dNorm db (camPoint cp (worldPoint pc p)).z ∧
    (pointSamplingB fd pc cp db p).mask =
      volumeMask (dNorm db (camPoint cp (worldPoint pc p)).z)
        (pointSamplingA fd pc cp p).xy.x (pointSamplingA fd pc cp p).xy.y ∧
    (pointSamplingA fd pc cp p).mask =
      volumeMask (camPoint cp (worldPoint pc p)).z
        (pointSamplingA fd pc cp p).xy.x (pointSamplingA fd pc cp p).xy.y ∧
    (((camPoint cp (worldPoint pc p)).z > eps ↔
        dNorm db (camPoint cp (worldPoint pc p)).z > eps) →
      (pointSamplingB fd pc cp db p).mask = (pointSamplingA fd pc cp p).mask) := by
  refine ⟨rfl, rfl, rfl, rfl, rfl, fun h => ?_⟩
  have hdec : decide (dNorm db (camPoint cp (worldPoint pc p)).z > eps) =
      decide ((camPoint cp (worldPoint pc p)).z > eps) :=
    decide_eq_decide.mpr h.symm
  show volumeMask (dNorm db (camPoint cp (worldPoint pc p)).z)
      (pixelFromCam fd cp (camPoint cp (worldPoint pc p))).x
      (pixelFromCam fd cp (camPoint cp (worldPoint pc p))).y =
    volumeMask (camPoint cp (worldPoint pc p)).z
      (pixelFromCam fd cp (camPoint cp (worldPoint pc p))).x
      (pixelFromCam fd cp (camPoint cp (worldPoint pc p))).y
  simp only [volumeMask, hdec]

/-- Witness for C2's amended claim at a concrete input where both depth
gates pass (camera depth 3, normalized depth 1/56), so the two masks are
equal there. -/
theorem c2_variants_agree_witness :
    ((camPoint idCam (worldPoint unitRange ⟨1/2, 1/2, 3⟩)).z > eps ↔
      dNorm dbStd (camPoint idCam (worldPoint unitRange ⟨1/2, 1/2, 3⟩)).z > eps) ∧
    (pointSamplingB (1, 1) unitRange idCam dbStd ⟨1/2, 1/2, 3⟩).mask =
      (pointSamplingA (1, 1) unitRange idCam ⟨1/2, 1/2, 3⟩).mask := by
  have h : (camPoint idCam (worldPoint unitRange ⟨1/2, 1/2, 3⟩)).z > eps ↔
      dNorm dbStd (camPoint idCam (worldPoint unitRange ⟨1/2, 1/2, 3⟩)).z > eps := by
    norm_num [camPoint, worldPoint, dNorm, Mat3.inv, Mat3.det, det3x3,
      Mat3.app, idCam, id3, unitRange, dbStd, eps]
  exact ⟨h,
    (c2_variants_agree (1, 1) unitRange idCam dbStd ⟨1/2, 1/2, 3⟩).2.2.2.2.2 h⟩

/-! ## Claim C4 -/

/-- C4 counterexample: `point_sampling` does NOT leave its
`reference_points` argument unchanged.  With `pc_range = [-1,..,1]` the
in-place writes of lines 112–117 turn the normalized point (1/2, 1/2, 1/2)
into (0, 0, 0) in the caller's buffer. -/
theorem c4_buffer_mutated :
    (pointSamplingA (1, 1) symRange idCam ⟨1/2, 1/2, 1/2⟩).bufferAfter ≠
      (⟨1/2, 1/2, 1/2⟩ : Vec3) := by
  simp only [pointSamplingA, worldPoint, symRange, ne_eq, Vec3.mk.injEq]
  norm_num

/-- C4 amended: `point_sampling` overwrites its `reference_points` input
in place with the `pc_range`-rescaled (metric) coordinates, so the
`ref_3d` tensor the encoder hands every attention layer is the rescaled
buffer, not the originally generated normalized [0,1]³ coordinates — and
it is the same rescaled buffer for every layer, since only the running
query changes between layers. -/
theorem c4_buffer_rescaled (fd : ℚ × ℚ) (pc : PcRange) (cp : CamParams)
    (p : Vec3) (cfg : EncoderCfg) (cams : List CamParams) (q : Q)
    (bevH bevW : Nat) (r : List (List Vec3)) (pb : Q) (q₂ : Q) :
    (pointSamplingA fd pc cp p).bufferAfter = worldPoint pc p ∧
    (pointSamplingB fd pc cp dbStd p).bufferAfter = worldPoint pc p ∧
    (encBaseInput cfg cams q bevH bevW r pb).ref3d =
      r.map (fun lvl => lvl.map (worldPoint cfg.pcRange)) ∧
    (stepInput (encBaseInput cfg cams q bevH bevW r pb) q₂).ref3d =
      (encBaseInput cfg cams q bevH bevW r pb).ref3d :=
  ⟨rfl, rfl, rfl, rfl⟩

/-! ## Claim C7 -/

/-- C7: the divisor of the perspective divide is `max(d, ε)`, hence always
at least ε and strictly positive; the projected pixel is total (the divide
is the only place depth enters the pixel), and degenerate depth `d ≤ ε`
surfaces only as a false visibility mask. -/
theorem c7_divisor_positive (fd : ℚ × ℚ) (pc : PcRange) (cp : CamParams)
    (p : Vec3) :
    eps ≤ perspDivisor (camPoint cp (worldPoint pc p)).z ∧
    0 < perspDivisor (camPoint cp (worldPoint pc p)).z ∧
    (pointSamplingA fd pc cp p).xy =
      pixelFromCam fd cp (camPoint cp (worldPoint pc p)) ∧
    ((camPoint cp (worldPoint pc p)).z ≤ eps →
      (pointSamplingA fd pc cp p).mask = false) := by
  refine ⟨le_max_right _ _, lt_of_lt_of_le eps_pos (le_max_right _ _), rfl,
    fun h => ?_⟩
  exact volumeMask_false_of_depth_le _ _ _ h

/-- Witness for C7 at a concrete negative depth: the divisor stays
positive and the point is simply masked out. -/
theorem c7_divisor_positive_witness :
    (camPoint idCam (worldPoint unitRange ⟨1/2, 1/2, -1⟩)).z ≤ eps ∧
    (pointSamplingA (1, 1) unitRange idCam ⟨1/2, 1/2, -1⟩).mask = false := by
  have h : (camPoint idCam (worldPoint unitRange ⟨1/2, 1/2, -1⟩)).z ≤ eps := by
    norm_num [camPoint, worldPoint, Mat3.inv, Mat3.det, det3x3, Mat3.app,
      idCam, id3, unitRange, eps]
  exact ⟨h, (c7_divisor_positive (1, 1) unitRange idCam ⟨1/2, 1/2, -1⟩).2.2.2 h⟩

/-! ## Claim C9 -/

/-- C9: `get_reference_points` with a `dim` that is neither `'3d'` nor
`'2d'` falls off the `if/elif` chain and returns `None`. -/
theorem c9_unknown_dim_returns_none (H W Z n bs : Nat) (dim : String)
    (h3 : dim ≠ "3d") (h2 : dim ≠ "2d") :
    get_reference_points H W Z n dim bs = none := by
  simp only [get_reference_points, if_neg h3, if_neg h2]

/-- Witness for C9 at the concrete dimension string `"4d"`. -/
theorem c9_unknown_dim_returns_none_witness :
    ("4d" ≠ "3d" ∧ "4d" ≠ "2d") ∧
    get_reference_points 4 4 8 4 "4d" 1 = none :=
  ⟨⟨by decide, by decide⟩,
   c9_unknown_dim_returns_none 4 4 8 4 1 "4d" (by decide) (by decide)⟩

/-! ## Claim C8 -/

/-- Reading inside the replicated region of a replicated list. -/
lemma getD_replicate {α : Type} (a d : α) :
    ∀ n i : Nat, i < n → (List.replicate n a).getD i d = a
  | 0, i, h => absurd h (Nat.not_lt_zero i)
  | _ + 1, 0, _ => rfl
  | n + 1, i + 1, h => getD_replicate a d n i (Nat.lt_of_succ_lt_succ h)

/-- Reading a replicated-`none` list with default `none` is `none` at
every index. -/
lemma getD_replicate_none {α : Type} :
    ∀ n i : Nat, (List.replicate n (none : Option α)).getD i none = none
  | 0, _ => rfl
  | _ + 1, 0 => rfl
  | n + 1, i + 1 => getD_replicate_none n i

/-- A trivial sub-module context over ℚ queries and ℕ masks, for concrete
instantiations. -/
def trivCtx : LayerCtx ℚ ℕ :=
  { attention := fun _ q _ _ _ _ => q, norm := fun _ q => q,
    ffn := fun _ q _ => q, preNorm := false }

/-- C8: a single shared attention mask supplied to `VoxFormerLayer.forward`
is duplicated into one copy per attention slot (`num_attn` copies), the
warning fires, and the call proceeds (no assert failure); with no mask
supplied, every attention slot receives no mask. -/
theorem c8_single_mask_broadcast {Q M : Type} (ctx : LayerCtx Q M)
    (numAttn : Nat) (m : M) (key value prevBev : Q) (order : List String)
    (q : Q) :
    normalizeAttnMasks numAttn (AttnMasksArg.single m) =
      .ok (List.replicate numAttn (some m)) true ∧
    (∀ i, i < numAttn →
      (List.replicate numAttn (some m)).getD i none = some m) ∧
    (layerForwardTop ctx numAttn (.single m) key value prevBev order q).isSome
      = true ∧
    normalizeAttnMasks (M := M) numAttn .absent =
      .ok (List.replicate numAttn none) false ∧
    (∀ i, (List.replicate numAttn (none : Option M)).getD i none = none) :=
  ⟨rfl, fun i h => getD_replicate _ _ _ _ h, rfl, rfl,
   fun i => getD_replicate_none _ _⟩

/-- Witness for C8 with one attention slot and the shared mask 7: slot 0
receives the mask. -/
theorem c8_single_mask_broadcast_witness :
    0 < 1 ∧ (List.replicate 1 (some 7)).getD 0 none = some 7 :=
  ⟨Nat.zero_lt_one,
   (c8_single_mask_broadcast trivCtx 1 7 0 0 0 [] 0).2.1 0 Nat.zero_lt_one⟩

/-! ## Claim C10 -/

/-- One loop iteration on a tag outside the recognized four changes
nothing: no `else` branch exists. -/
lemma layerStep_skip {Q M : Type} (ctx : LayerCtx Q M)
    (key value prevBev : Q) (masks : Nat → Option M) (s : LayerState Q)
    (tag : String) (h : tag ∉ recognizedTags) :
    layerStep ctx key value prevBev masks s tag = s := by
  obtain ⟨h1, h2, h3, h4⟩ :
      tag ≠ "self_attn" ∧ tag ≠ "norm" ∧ tag ≠ "cross_attn" ∧ tag ≠ "ffn" := by
    simpa [recognizedTags] using h
  simp [layerStep, h1, h2, h3, h4]

/-- Folding the loop over an operation order equals folding it over the
recognized tags only. -/
lemma foldl_layerStep_filter {Q M : Type} (ctx : LayerCtx Q M)
    (key value prevBev : Q) (masks : Nat → Option M) :
    ∀ (order : List String) (s : LayerState Q),
      order.foldl (layerStep ctx key value prevBev masks) s =
        (order.filter fun t => decide (t ∈ recognizedTags)).foldl
          (layerStep ctx key value prevBev masks) s
  | [], _ => rfl
  | t :: ts, s => by
    by_cases ht : t ∈ recognizedTags
    · rw [List.foldl_cons, List.filter_cons_of_pos (by simpa using ht),
        List.foldl_cons]
      exact foldl_layerStep_filter ctx key value prevBev masks ts _
    · rw [List.foldl_cons, List.filter_cons_of_neg (by simpa using ht),
        layerStep_skip ctx key value prevBev masks s t ht]
      exact foldl_layerStep_filter ctx key value prevBev masks ts s

/-- C10: `VoxFormerLayer.forward` silently skips every operation tag that
is not `self_attn`, `norm`, `cross_attn` or `ffn`: such a tag leaves the
running query, the identity anchor and all three sub-module indices
unchanged, and the forward result over any operation order equals the
result over the recognized tags alone. -/
theorem c10_unknown_tags_skipped {Q M : Type} (ctx : LayerCtx Q M)
    (key value prevBev : Q) (masks : Nat → Option M) (s : LayerState Q)
    (tag : String) (h : tag ∉ recognizedTags) :
    layerStep ctx key value prevBev masks s tag = s ∧
    ∀ (order : List String) (q : Q),
      layerForward ctx key value prevBev masks order q =
        layerForward ctx key value prevBev masks
          (order.filter fun t => decide (t ∈ recognizedTags)) q :=
  ⟨layerStep_skip ctx key value prevBev masks s tag h,
   fun order q => congrArg LayerState.query
     (foldl_layerStep_filter ctx key value prevBev masks order
       ⟨q, q, 0, 0, 0⟩)⟩

/-- A concrete loop state over ℚ queries. -/
def s0 : LayerState ℚ := ⟨1, 2, 3, 4, 5⟩

/-- Witness for C10 at the concrete unrecognized tag `"bogus"`. -/
theorem c10_unknown_tags_skipped_witness :
    "bogus" ∉ recognizedTags ∧
    layerStep trivCtx 0 0 0 (fun _ => none) s0 "bogus" = s0 :=
  ⟨by decide,
   (c10_unknown_tags_skipped trivCtx 0 0 0 (fun _ => none) s0 "bogus"
     (by decide)).1⟩

/-! ## Claim C5 -/

/-- C5: the 2D reference points fed to temporal self-attention — the
`ref2d` field of the bundle every layer receives — are generated on the
hard-coded 512×512 grid (duplicated into the hybrid stack), for the first
layer and all later layers alike, and do not depend on the caller-supplied
`bev_h`/`bev_w`. -/
theorem c5_fixed_512_grid (cfg : EncoderCfg) (cams : List CamParams) (q : Q)
    (bevH bevW bevH₂ bevW₂ : Nat) (r : List (List Vec3)) (pb : Q) (q₂ : Q) :
    (encBaseInput cfg cams q bevH bevW r pb).ref2d =
      [getReferencePoints2d 512 512, getReferencePoints2d 512 512] ∧
    (stepInput (encBaseInput cfg cams q bevH bevW r pb) q₂).ref2d =
      [getReferencePoints2d 512 512, getReferencePoints2d 512 512] ∧
    (encBaseInput cfg cams q bevH bevW r pb).ref2d =
      (encBaseInput cfg cams q bevH₂ bevW₂ r pb).ref2d :=
  ⟨rfl, rfl, rfl⟩

/-! ## Claim C6 -/

/-- The layer loop produces exactly one output per configured layer. -/
lemma runLayers_length {Q : Type} :
    ∀ (ls : List (LayerInput Q → Q)) (inp : LayerInput Q),
      (runLayers ls inp).length = ls.length
  | [], _ => rfl
  | _ :: ls, inp => by
    simp [runLayers, runLayers_length ls]

/-- The last collected output is the final running query. -/
lemma runLayers_getLastD {Q : Type} :
    ∀ (ls : List (LayerInput Q → Q)) (inp : LayerInput Q),
      (runLayers ls inp).getLastD inp.query = queryAfter ls inp
  | [], _ => rfl
  | l :: ls, inp => by
    rw [runLayers, List.getLastD_cons]
    exact runLayers_getLastD ls (stepInput inp (l inp))

/-- The i-th collected output is the running query after the first i+1
layers. -/
lemma runLayers_get {Q : Type} :
    ∀ (ls : List (LayerInput Q → Q)) (inp : LayerInput Q) (i : Nat)
      (h : i < (runLayers ls inp).length),
      (runLayers ls inp).get ⟨i, h⟩ = queryAfter (ls.take (i + 1)) inp
  | [], _, i, h => absurd h (by simp [runLayers])
  | _ :: _, _, 0, _ => rfl
  | l :: ls, inp, i + 1, h => by
    show (runLayers ls (stepInput inp (l inp))).get ⟨i, _⟩ = _
    rw [runLayers_get ls (stepInput inp (l inp)) i _]
    rfl

/-- C6: with `return_intermediate = False` the encoder returns only the
final layer's output, with no layer axis; with it `True` and N configured
layers the returned stack has exactly N entries, the i-th being the running
query after layers 0..i; and the forward pass is deterministic — equal
inputs give equal outputs. -/
theorem c6_intermediate_stack (cfg : EncoderCfg)
    (layers : List (LayerInput Q → Q)) (cams : List CamParams) (q : Q)
    (bevH bevW : Nat) (r : List (List Vec3)) (pb : Q) :
    (cfg.returnIntermediate = false →
      encForward cfg layers cams q bevH bevW r pb =
        .single (queryAfter layers (encBaseInput cfg cams q bevH bevW r pb))) ∧
    (cfg.returnIntermediate = true →
      encForward cfg layers cams q bevH bevW r pb =
        .stack (runLayers layers (encBaseInput cfg cams q bevH bevW r pb)) ∧
      (runLayers layers (encBaseInput cfg cams q bevH bevW r pb)).length =
        layers.length ∧
      ∀ i (h : i <
          (runLayers layers (encBaseInput cfg cams q bevH bevW r pb)).length),
        (runLayers layers (encBaseInput cfg cams q bevH bevW r pb)).get ⟨i, h⟩ =
          queryAfter (layers.take (i + 1))
            (encBaseInput cfg cams q bevH bevW r pb)) ∧
    (∀ q₂ bevH₂ bevW₂ r₂ pb₂, q = q₂ → bevH = bevH₂ → bevW = bevW₂ →
      r = r₂ → pb = pb₂ →
      encForward cfg layers cams q bevH bevW r pb =
        encForward cfg layers cams q₂ bevH₂ bevW₂ r₂ pb₂) := by
  refine ⟨fun h => ?_, fun h => ⟨?_, runLayers_length layers _, ?_⟩,
    fun q₂ bevH₂ bevW₂ r₂ pb₂ e1 e2 e3 e4 e5 => ?_⟩
  · simp only [encForward, h, Bool.false_eq_true, if_false]
    exact congrArg EncOut.single
      (runLayers_getLastD layers (encBaseInput cfg cams q bevH bevW r pb))
  · simp only [encForward, h, if_true]
  · exact fun i hi => runLayers_get layers _ i hi
  · subst e1; subst e2; subst e3; subst e4; subst e5; rfl

/-- A one-layer encoder configuration and an increment layer over ℚ
queries, for concrete instantiation. -/
def cfgT : EncoderCfg := ⟨true, unitRange, (1, 1)⟩

/-- A layer that increments the running query. -/
def incLayer : LayerInput ℚ → ℚ := fun inp => inp.query + 1

/-- Witness for C6: with `return_intermediate = true` and one layer, the
encoder returns the stacked intermediates. -/
theorem c6_intermediate_stack_witness :
    cfgT.returnIntermediate = true ∧
    encForward cfgT [incLayer] [] (0 : ℚ) 1 1 [] 0 =
      .stack (runLayers [incLayer] (encBaseInput cfgT [] (0 : ℚ) 1 1 [] 0)) :=
  ⟨rfl, ((c6_intermediate_stack cfgT [incLayer] [] 0 1 1 [] 0).2.1 rfl).1⟩

/-! ## Claim C3 -/

/-- The grid axes `linspace(0.5, W-0.5, W)` are exactly the cell centers
`c + 0.5`. -/
lemma linspace_half (W : Nat) :
    linspace (1/2) ((W : ℚ) - 1/2) W =
      (List.range W).map fun c : ℕ => (c : ℚ) + 1/2 := by
  unfold linspace
  by_cases h1 : W = 1
  · subst h1
    norm_num [List.range_succ]
  · rw [if_neg h1]
    apply List.map_congr_left
    intro i hi
    have hiW : i < W := List.mem_range.mp hi
    have hW2 : 2 ≤ W := by omega
    have hne : ((W : ℚ) - 1) ≠ 0 := by
      have h2 : (2 : ℚ) ≤ (W : ℚ) := by exact_mod_cast hW2
      linarith
    have hsub : (W : ℚ) - 1/2 - 1/2 = (W : ℚ) - 1 := by ring
    rw [hsub, mul_comm, mul_div_assoc, div_self hne, mul_one]
    ring

/-- For `n ≠ 1` pillar levels, the raw z levels are the general linspace
values. -/
lemma linspace_pillar (Z n : Nat) (hn : n ≠ 1) :
    linspace (1/2) ((Z : ℚ) - 1/2) n =
      (List.range n).map fun k : ℕ =>
        1/2 + ((Z : ℚ) - 1) * (k : ℚ) / ((n : ℚ) - 1) := by
  unfold linspace
  rw [if_neg hn]
  apply List.map_congr_left
  intro k _
  have hsub : (Z : ℚ) - 1/2 - 1/2 = (Z : ℚ) - 1 := by ring
  rw [hsub]

/-- C3 counterexample: with the defaults `num_points_in_pillar = 4`,
`Z = 8` (and a 1×1 grid), the code's z levels are
`linspace(0.5, 7.5, 4)/8 = [1/16, 17/48, 31/48, 15/16]`, not the claimed
`(level+0.5)/Z = [1/16, 3/16, 5/16, 7/16]`: already level 1 gives 17/48
instead of 3/16. -/
theorem c3_pillar_levels_not_centers :
    getReferencePoints3d 1 1 8 4 =
      [[⟨1/2, 1/2, 1/16⟩], [⟨1/2, 1/2, 17/48⟩],
       [⟨1/2, 1/2, 31/48⟩], [⟨1/2, 1/2, 15/16⟩]] ∧
    ¬((17 : ℚ)/48 = (1 + 1/2)/8) := by
  constructor
  · norm_num [getReferencePoints3d, linspace, List.range_succ, Vec3.mk.injEq]
  · norm_num

/-- C3 amended: the 3D reference points place, for each of the
`numPointsInPillar` levels and each (row, col) of the H×W grid, the point
`((col+0.5)/W, (row+0.5)/H, z_k/Z)` at position `row·W + col` of level k —
with `z_k = linspace(0.5, Z-0.5, n)[k] = 0.5 + k·(Z-1)/(n-1)` for `n ≥ 2`
(equal to the claimed `(k+0.5)` only when `n = Z`); the claim's concrete
instance `n = 1, H = W = 2` holds as stated, with z-coordinate `0.5/Z` and
(x, y) pairs (0.25, 0.25), (0.75, 0.25), (0.25, 0.75), (0.75, 0.75). -/
theorem c3_reference_points_3d (H W Z n : Nat) :
    (2 ≤ n →
      getReferencePoints3d H W Z n =
        (List.range n).map fun k : ℕ =>
          (List.range H).flatMap fun row : ℕ =>
            (List.range W).map fun col : ℕ =>
              (⟨((col : ℚ) + 1/2) / W, ((row : ℚ) + 1/2) / H,
                (1/2 + ((Z : ℚ) - 1) * (k : ℚ) / ((n : ℚ) - 1)) / Z⟩ : Vec3)) ∧
    getReferencePoints3d 2 2 Z 1 =
      [[⟨1/4, 1/4, 1/2 / (Z : ℚ)⟩, ⟨3/4, 1/4, 1/2 / (Z : ℚ)⟩,
        ⟨1/4, 3/4, 1/2 / (Z : ℚ)⟩, ⟨3/4, 3/4, 1/2 / (Z : ℚ)⟩]] := by
  constructor
  · intro hn
    rw [getReferencePoints3d, linspace_pillar Z n (by omega), linspace_half H,
      linspace_half W]
    simp only [List.map_map, List.flatMap_map, Function.comp_def]
  · norm_num [getReferencePoints3d, linspace, List.range_succ, Vec3.mk.injEq]

/-- Witness for C3's amended claim at `n = 2, H = W = 1, Z = 8`: the two z
levels are 1/16 and 15/16. -/
theorem c3_reference_points_3d_witness :
    2 ≤ 2 ∧
    getReferencePoints3d 1 1 8 2 =
      (List.range 2).map fun k : ℕ =>
        (List.range 1).flatMap fun row : ℕ =>
          (List.range 1).map fun col : ℕ =>
            (⟨((col : ℚ) + 1/2) / 1, ((row : ℚ) + 1/2) / 1,
              (1/2 + ((8 : ℚ) - 1) * (k : ℚ) / ((2 : ℚ) - 1)) / 8⟩ : Vec3) :=
  ⟨by decide, (c3_reference_points_3d 1 1 8 2).1 (by decide)⟩

end CGFormer
